import Mathlib

/-!
Verification development for the C-napse desktop assistant core.

This file shallowly embeds the parts of the Rust source that the spec's
claims are about:

* `src/tui/tools_executor.rs` — the tool executor (`ToolExecutor::execute`,
  `get_string_arg`, `get_int_arg`) and the reply parser (`parse_tool_calls`);
* `src/memory/store.rs` — the SQLite-backed `MemoryStore` (messages, notes),
  modelled as a pure state machine over an explicit database value;
* `src/memory/context.rs` — `ContextManager::add_message` with the hot
  window;
* `src/tui/app.rs` — the turn loop `TuiApp::process_with_agent`.

External collaborators (SQLite, serde_json, the OS-level tool
implementations, the inference backend) are modelled at their boundary:
the database is a list of rows, JSON parsing is a recursive-descent parser
standing in for `serde_json::from_str`, the OS tools are an oracle record
of functions returning the `ToolResult` shape the tool modules return, and
inference outcomes are `Except` parameters.  Failure of a SQLite write is
injected as an explicit boolean (`true` = the INSERT succeeds).
-/

namespace Cnapse

/-- Model of `serde_json::Value` (external collaborator).  Numbers are
modelled as integers only; the reference parser below rejects fractional
literals, which is irrelevant to the claims (all theorems either quantify
over the parse result or evaluate the parser on concrete non-JSON text). -/
inductive Json where
  | null
  | jbool (b : Bool)
  | num (n : Int)
  | str (s : String)
  | arr (xs : List Json)
  | obj (fields : List (String × Json))

/-- Model of `serde_json::Value::as_str`. -/
def Json.asStr : Json → Option String
  | .str s => some s
  | _ => none

/-- Model of `serde_json::Value::as_i64`: integer numbers in i64 range. -/
def Json.asI64 : Json → Option Int
  | .num n => if -(2 ^ 63) ≤ n ∧ n < 2 ^ 63 then some n else none
  | _ => none

/-- Argument map, modelling `HashMap<String, serde_json::Value>` as an
association list with insert-replaces-existing-key semantics. -/
abbrev Args := List (String × Json)

/-- HashMap insert: replaces the value when the key is present. -/
def Args.insert (m : Args) (k : String) (v : Json) : Args :=
  if m.any (fun p => p.1 = k) then
    m.map (fun p => if p.1 = k then (k, v) else p)
  else
    m ++ [(k, v)]

/-- HashMap get. -/
def Args.get (m : Args) (k : String) : Option Json :=
  (m.find? (fun p => p.1 = k)).map (fun p => p.2)

/-- Model of `Value::get` on a JSON value (object field lookup). -/
def Json.get (j : Json) (k : String) : Option Json :=
  match j with
  | .obj fields => Args.get fields k
  | _ => none

/-- `ToolResult` as in `src/tools/mod.rs` and `src/tui/tools_executor.rs`
(both structs have the identical fields `success`, `output`, `error`). -/
structure ToolResult where
  success : Bool
  output : String
  error : Option String
deriving DecidableEq, Repr

/-- `ToolResult::ok` from `src/tools/mod.rs`. -/
def ToolResult.okOut (output : String) : ToolResult :=
  ⟨true, output, none⟩

/-- `ToolResult::err` from `src/tools/mod.rs`. -/
def ToolResult.errOut (error : String) : ToolResult :=
  ⟨false, "", some error⟩

/-- `ToolRequest` from `src/tui/tools_executor.rs`. -/
structure ToolRequest where
  name : String
  args : Args

/-- The variants of `CnapseError` (src/error.rs) that the embedded code
constructs; each carries the formatted message passed to the constructor. -/
inductive CnapseError where
  | tool (msg : String)
  | memory (msg : String)
  | inference (msg : String)
  | database (msg : String)
deriving DecidableEq, Repr

/-- Oracle for the OS-level tool implementations in `src/tools/*` (external
collaborators): each field returns the `ToolResult` that the corresponding
tool function would return.  The tool functions in `src/tools` are total —
they never return `Err` — which is why the oracle fields are plain
functions. -/
structure OsWorld where
  read_file : String → ToolResult
  write_file : String → String → ToolResult
  list_dir : String → Bool → ToolResult
  run_command : String → ToolResult
  set_clipboard : String → ToolResult
  get_clipboard : ToolResult
  list_processes : ToolResult
  kill_process : Nat → ToolResult
  take_screenshot : Option String → ToolResult

namespace ToolExecutor

/-- `ToolExecutor::get_string_arg`: look the key up in the argument map,
keep it only if it is a JSON string, otherwise error
`CnapseError::tool("Missing argument: <key>")`. -/
def get_string_arg (args : Args) (key : String) : Except CnapseError String :=
  match (Args.get args key).bind Json.asStr with
  | some s => .ok s
  | none => .error (.tool ("Missing argument: " ++ key))

/-- `ToolExecutor::get_int_arg`. -/
def get_int_arg (args : Args) (key : String) : Except CnapseError Int :=
  match (Args.get args key).bind Json.asI64 with
  | some n => .ok n
  | none => .error (.tool ("Missing argument: " ++ key))

/-- The `i64 as u32` cast applied to the pid in the `kill_process` branch. -/
def i64AsU32 (n : Int) : Nat :=
  (n % (2 ^ 32)).toNat

/-- `ToolExecutor::execute` from `src/tui/tools_executor.rs`, branch by
branch.  The `?` on `get_string_arg` / `get_int_arg` propagates the missing
argument as an `Except.error`; every other outcome is an `Except.ok`
carrying the `ToolResult` copied field-by-field from the tool module. -/
def execute (os : OsWorld) (request : ToolRequest) : Except CnapseError ToolResult :=
  match request.name with
  | "read_file" =>
    match get_string_arg request.args "path" with
    | .error e => .error e
    | .ok path => .ok (os.read_file path)
  | "write_file" =>
    match get_string_arg request.args "path" with
    | .error e => .error e
    | .ok path =>
      match get_string_arg request.args "content" with
      | .error e => .error e
      | .ok content => .ok (os.write_file path content)
  | "list_dir" =>
    let path := match get_string_arg request.args "path" with
      | .ok p => p
      | .error _ => "."
    .ok (os.list_dir path false)
  | "shell" => runShell os request
  | "run_command" => runShell os request
  | "copy_to_clipboard" =>
    match get_string_arg request.args "text" with
    | .error e => .error e
    | .ok text => .ok (os.set_clipboard text)
  | "read_clipboard" => .ok os.get_clipboard
  | "list_processes" => .ok os.list_processes
  | "kill_process" =>
    match get_int_arg request.args "pid" with
    | .error e => .error e
    | .ok pid => .ok (os.kill_process (i64AsU32 pid))
  | "screenshot" =>
    let path := (Args.get request.args "path").bind Json.asStr
    .ok (os.take_screenshot path)
  | other => .ok ⟨false, "", some ("Unknown tool: " ++ other)⟩
where
  /-- Shared body of the `"shell" | "run_command"` arm. -/
  runShell (os : OsWorld) (request : ToolRequest) : Except CnapseError ToolResult :=
    match get_string_arg request.args "command" with
    | .error e => .error e
    | .ok command => .ok (os.run_command command)

end ToolExecutor

/-! ### Parsing tool-call directives out of an inference reply
`parse_tool_calls` in `src/tui/tools_executor.rs` first tries to read the
whole reply as a JSON object with a `tool` field (via `serde_json::from_str`),
then scans the reply for the inline form `[TOOL: name(key=value, ...)]`
with the regex `\[TOOL:\s*(\w+)\(([^)]*)\)\]`.  The JSON parser below is
the model of the external `serde_json` collaborator; the scanner mirrors
the regex directly. -/

/-- Drop leading whitespace (regex `\s*` / JSON insignificant whitespace). -/
def skipWs : List Char → List Char
  | c :: cs => if c.isWhitespace then skipWs cs else c :: cs
  | [] => []

/-- JSON escape sequences after a backslash (the common ones; `\u` escapes
are not modelled and make the parser fail, which no claim depends on). -/
def unescape (c : Char) : Option Char :=
  if c = '"' then some '"'
  else if c = '\\' then some '\\'
  else if c = '/' then some '/'
  else if c = 'n' then some '\n'
  else if c = 't' then some '\t'
  else if c = 'r' then some '\r'
  else none

/-- Parse the body of a JSON string (the opening quote already consumed);
returns the decoded characters and the remainder after the closing quote. -/
def jsonString : List Char → Option (List Char × List Char)
  | [] => none
  | '"' :: rest => some ([], rest)
  | '\\' :: e :: rest =>
    match unescape e, jsonString rest with
    | some c, some (s, r) => some (c :: s, r)
    | _, _ => none
  | c :: rest =>
    match jsonString rest with
    | some (s, r) => some (c :: s, r)
    | none => none

/-- Leading decimal digits of a character list. -/
def takeDigits : List Char → (List Char × List Char)
  | c :: cs =>
    if c.isDigit then
      let (ds, rest) := takeDigits cs
      (c :: ds, rest)
    else ([], c :: cs)
  | [] => ([], [])

/-- Numeric value of a digit list. -/
def natOfDigits (ds : List Char) : Nat :=
  ds.foldl (fun n c => n * 10 + (c.toNat - 48)) 0

/-- Parse a JSON integer literal (fractional and exponent literals are not
modelled; see `Json`). -/
def jsonNumber (cs : List Char) : Option (Json × List Char) :=
  let (neg, cs1) :=
    match cs with
    | '-' :: rest => (true, rest)
    | _ => (false, cs)
  match takeDigits cs1 with
  | ([], _) => none
  | (ds, rest) =>
    match rest with
    | '.' :: _ => none
    | 'e' :: _ => none
    | 'E' :: _ => none
    | _ =>
      let n : Int := natOfDigits ds
      some (.num (if neg then -n else n), rest)

mutual

/-- Recursive-descent JSON value parser (fuel-indexed), modelling
`serde_json::from_str::<serde_json::Value>`. -/
def parseValue : Nat → List Char → Option (Json × List Char)
  | 0, _ => none
  | fuel + 1, cs =>
    match skipWs cs with
    | 'n' :: 'u' :: 'l' :: 'l' :: rest => some (.null, rest)
    | 't' :: 'r' :: 'u' :: 'e' :: rest => some (.jbool true, rest)
    | 'f' :: 'a' :: 'l' :: 's' :: 'e' :: rest => some (.jbool false, rest)
    | '"' :: rest =>
      (jsonString rest).map (fun p => (.str (String.mk p.1), p.2))
    | '[' :: rest =>
      match skipWs rest with
      | ']' :: rest2 => some (.arr [], rest2)
      | cs2 => (parseElems fuel cs2).map (fun p => (.arr p.1, p.2))
    | '{' :: rest =>
      match skipWs rest with
      | '}' :: rest2 => some (.obj [], rest2)
      | cs2 =>
        (parseMembers fuel cs2).map
          (fun p => (.obj (p.1.foldl (fun m kv => Args.insert m kv.1 kv.2) []), p.2))
    | cs2 => jsonNumber cs2

/-- Comma-separated JSON array elements up to the closing bracket. -/
def parseElems : Nat → List Char → Option (List Json × List Char)
  | 0, _ => none
  | fuel + 1, cs =>
    match parseValue fuel cs with
    | none => none
    | some (v, rest) =>
      match skipWs rest with
      | ',' :: rest2 =>
        match parseElems fuel rest2 with
        | some (vs, r) => some (v :: vs, r)
        | none => none
      | ']' :: rest2 => some ([v], rest2)
      | _ => none

/-- Comma-separated JSON object members up to the closing brace. -/
def parseMembers : Nat → List Char → Option (List (String × Json) × List Char)
  | 0, _ => none
  | fuel + 1, cs =>
    match skipWs cs with
    | '"' :: rest =>
      match jsonString rest with
      | none => none
      | some (k, rest2) =>
        match skipWs rest2 with
        | ':' :: rest3 =>
          match parseValue fuel rest3 with
          | none => none
          | some (v, rest4) =>
            match skipWs rest4 with
            | ',' :: rest5 =>
              match parseMembers fuel rest5 with
              | some (kvs, r) => some ((String.mk k, v) :: kvs, r)
              | none => none
            | '}' :: rest5 => some ([(String.mk k, v)], rest5)
            | _ => none
        | _ => none
    | _ => none

end

/-- Whole-string JSON parse, as `serde_json::from_str`: the complete input
(up to trailing whitespace) must be one JSON value. -/
def parseJson (s : String) : Option Json :=
  match parseValue (2 * s.length + 2) s.data with
  | some (j, rest) => if (skipWs rest).isEmpty then some j else none
  | none => none

/-- Regex `\w` on the tool names in play (ASCII word character). -/
def isWordChar (c : Char) : Bool :=
  c.isAlphanum || c = '_'

/-- Try to match the inline directive `[TOOL: name(args)]` (the regex
`\[TOOL:\s*(\w+)\(([^)]*)\)\]`) at the head of the input; on success return
the two capture groups and the remainder after the match. -/
def matchInline : List Char → Option (String × String × List Char)
  | '[' :: 'T' :: 'O' :: 'O' :: 'L' :: ':' :: rest =>
    let rest2 := skipWs rest
    let (name, rest3) := rest2.span isWordChar
    if name.isEmpty then none
    else
      match rest3 with
      | '(' :: rest4 =>
        let (argsChars, rest5) := rest4.span (fun c => c ≠ ')')
        match rest5 with
        | ')' :: ']' :: rest6 => some (String.mk name, String.mk argsChars, rest6)
        | _ => none
      | _ => none
  | _ => none

/-- Scan for all non-overlapping leftmost inline matches
(`Regex::captures_iter`). -/
def scanInline : Nat → List Char → List (String × String)
  | 0, _ => []
  | _, [] => []
  | fuel + 1, c :: cs =>
    match matchInline (c :: cs) with
    | some (name, args, rest) => (name, args) :: scanInline fuel rest
    | none => scanInline fuel cs

/-- `str::trim`: strip whitespace from both ends. -/
def trimChars (cs : List Char) : List Char :=
  ((cs.dropWhile Char.isWhitespace).reverse.dropWhile Char.isWhitespace).reverse

/-- `str::split(',')`: comma-separated pieces; the empty string yields one
empty piece, and adjacent commas yield empty pieces. -/
def splitOnCommaChars : List Char → List (List Char)
  | [] => [[]]
  | c :: cs =>
    if c = ',' then [] :: splitOnCommaChars cs
    else
      match splitOnCommaChars cs with
      | s :: ss => (c :: s) :: ss
      | [] => [[c]]

/-- `str::split_once('=')`: split at the first equals sign, if any. -/
def splitOnceEq : List Char → Option (List Char × List Char)
  | [] => none
  | c :: cs =>
    if c = '=' then some ([], cs)
    else (splitOnceEq cs).map (fun p => (c :: p.1, p.2))

/-- Build the argument map of one inline directive: split the captured text
on commas, trim each piece, skip empty pieces, read `key=value` pairs, and
fall back to positional keys `arg<i>` (where `i` is the index in the comma
split, skipped pieces included). -/
def parseInlineArgs (argsStr : String) : Args :=
  ((splitOnCommaChars argsStr.data).enum).foldl
    (fun m p =>
      let arg := trimChars p.2
      if arg.isEmpty then m
      else
        match splitOnceEq arg with
        | some (k, v) =>
          Args.insert m (String.mk (trimChars k)) (.str (String.mk (trimChars v)))
        | none =>
          Args.insert m ("arg" ++ toString p.1) (.str (String.mk arg)))
    []

/-- `parse_tool_calls` from `src/tui/tools_executor.rs`: the JSON form
(whole reply an object with a string `tool` field, `args` object optional)
followed by every inline `[TOOL: ...]` match. -/
def parse_tool_calls (response : String) : List ToolRequest :=
  let jsonTools : List ToolRequest :=
    match parseJson response with
    | some j =>
      match (j.get "tool").bind Json.asStr with
      | some tool =>
        let args : Args :=
          match j.get "args" with
          | some (.obj fields) =>
            fields.foldl (fun m kv => Args.insert m kv.1 kv.2) []
          | _ => []
        [⟨tool, args⟩]
      | none => []
    | none => []
  let inlineTools : List ToolRequest :=
    (scanInline (response.length + 1) response.data).map
      (fun p => ⟨p.1, parseInlineArgs p.2⟩)
  jsonTools ++ inlineTools

/-! ### Data model: agent messages and the durable store
`MemoryStore` (src/memory/store.rs) is backed by SQLite.  The database is
modelled as explicit lists of rows kept in insertion order.  UUIDs and the
`datetime('now')` timestamps are both modelled by the single monotone
counter `tick`: every insert stamps the current tick and increments it, so
created-at values are strictly increasing and `ORDER BY created_at DESC`
coincides with reversing the insertion order (which also settles the
timestamp ties in favour of insertion order, as one-second timestamp
granularity does in the source). -/

/-- `MessageRole` from `src/agents/traits.rs`. -/
inductive MessageRole where
  | system
  | user
  | assistant
  | tool
deriving DecidableEq, Repr

/-- The role-to-string mapping in `ContextManager::add_message`
(src/memory/context.rs lines 36–41). -/
def MessageRole.toDbRole : MessageRole → String
  | .system => "system"
  | .user => "user"
  | .assistant => "assistant"
  | .tool => "tool"

/-- `AgentMessage` from `src/agents/traits.rs`.  The `metadata` field is
omitted: every embedded code path constructs it as `None` and none reads
it. -/
structure AgentMessage where
  role : MessageRole
  content : String
deriving DecidableEq, Repr

/-- `AgentMessage::system`. -/
def AgentMessage.system (content : String) : AgentMessage :=
  ⟨.system, content⟩

/-- `AgentMessage::user`. -/
def AgentMessage.user (content : String) : AgentMessage :=
  ⟨.user, content⟩

/-- `AgentMessage::assistant`. -/
def AgentMessage.assistant (content : String) : AgentMessage :=
  ⟨.assistant, content⟩

/-- A row of the `messages` table. -/
structure MsgRow where
  id : Nat
  session_id : String
  role : String
  content : String
  agent : Option String
  tokens : Option Int
  created_at : Nat
deriving DecidableEq, Repr

/-- A row of the `sessions` table (the unread `metadata` column omitted). -/
structure SessionRow where
  id : String
  created_at : Nat
  updated_at : Nat
  summary : Option String
deriving DecidableEq, Repr

/-- A row of the `notes` table (tags stored as the decoded list). -/
structure NoteRow where
  id : Nat
  content : String
  tags : List String
  created_at : Nat
deriving DecidableEq, Repr

/-- The SQLite database owned by one `MemoryStore`. -/
structure DB where
  sessions : List SessionRow
  messages : List MsgRow
  notes : List NoteRow
  tick : Nat
deriving DecidableEq, Repr

namespace MemoryStore

/-- `MemoryStore::add_message`: INSERT the message row, then UPDATE the
owning session's `updated_at`; returns the new message id. -/
def add_message (db : DB) (session_id role content : String)
    (agent : Option String) (tokens : Option Int) : DB × Nat :=
  let id := db.tick
  ({ db with
      messages := db.messages ++ [⟨id, session_id, role, content, agent, tokens, db.tick⟩],
      sessions := db.sessions.map
        (fun s => if s.id = session_id then { s with updated_at := db.tick } else s),
      tick := db.tick + 1 }, id)

/-- `MemoryStore::get_messages`: rows of the session, newest first
(`ORDER BY created_at DESC`), at most `limit` (default 100). -/
def get_messages (db : DB) (session_id : String) (limit : Option Nat) : List MsgRow :=
  let lim := limit.getD 100
  ((db.messages.filter (fun m => m.session_id = session_id)).reverse).take lim

/-- `MemoryStore::save_note`. -/
def save_note (db : DB) (content : String) (tags : List String) : DB × Nat :=
  let id := db.tick
  ({ db with
      notes := db.notes ++ [⟨id, content, tags, db.tick⟩],
      tick := db.tick + 1 }, id)

/-- `MemoryStore::get_notes`: the SQL query selects the newest `limit`
notes (`ORDER BY created_at DESC LIMIT ?1`); the tag filter is applied
afterwards, in memory, keeping notes sharing at least one tag with the
filter set. -/
def get_notes (db : DB) (tags : Option (List String)) (limit : Nat) : List NoteRow :=
  let notes := (db.notes.reverse).take limit
  match tags with
  | some filter_tags =>
    notes.filter (fun n => filter_tags.any (fun t => n.tags.contains t))
  | none => notes

end MemoryStore

/-! ### Context manager
`ContextManager::add_message` (src/memory/context.rs lines 31–55) pushes to
the hot window, persists via the store, then trims the hot window.  The
success of the store INSERT is injected as the boolean `writeOk`; on
`false` the call returns the storage error exactly where the `?` on
`self.store.add_message(...)` would. -/

/-- In-memory state of one `ContextManager`; `hot_turns` is
`settings.memory.hot_turns` (the only setting this code path reads). -/
structure ContextManager where
  store : DB
  hot_turns : Nat
  session_id : String
  hot_messages : List AgentMessage
deriving DecidableEq, Repr

namespace ContextManager

/-- `ContextManager::add_message`, statement order preserved: (1) push the
message onto the hot window; (2) persist via `MemoryStore::add_message`,
returning early with the error if the durable write fails; (3) trim the hot
window to `hot_turns * 2` by draining the oldest entries. -/
def add_message (cm : ContextManager) (message : AgentMessage)
    (agent : Option String) (writeOk : Bool) :
    ContextManager × Except CnapseError Unit :=
  let cm1 := { cm with hot_messages := cm.hot_messages ++ [message] }
  if writeOk then
    let db' := (MemoryStore.add_message cm1.store cm1.session_id
      message.role.toDbRole message.content agent none).1
    let cm2 := { cm1 with store := db' }
    let max_hot := cm2.hot_turns * 2
    let cm3 :=
      if max_hot < cm2.hot_messages.length then
        { cm2 with
            hot_messages := cm2.hot_messages.drop (cm2.hot_messages.length - max_hot) }
      else cm2
    (cm3, .ok ())
  else
    (cm1, .error (.database "INSERT failed"))

/-- A sequence of `add_message` calls, each paired with whether its durable
write succeeds; the caller keeps the (mutated) manager either way. -/
def add_messages (cm : ContextManager) (steps : List (AgentMessage × Bool)) :
    ContextManager :=
  steps.foldl (fun c p => (add_message c p.1 none p.2).1) cm

end ContextManager

/-! ### The turn loop
`TuiApp::process_with_agent` (src/tui/app.rs lines 305–464).  The modelled
observables are the durable database, the returned turn result, and the
context sent to the follow-up inference call.  The chat-pane updates
(`self.messages`, `self.status`) are presentation state and are omitted;
screen watching is off, so the submitted user content equals `input`.  The
inference collaborator's two calls and the tool executor are passed in as
`Except`-valued parameters; the success of each of the two commit INSERTs
is injected as a boolean. -/

/-- The per-tool summary string pushed into `tool_results`
(`format!("[{} result: {}]", ...)`): the output on success, otherwise the
error text (default `"Failed"`). -/
def formatToolResult (name : String) (r : ToolResult) : String :=
  "[" ++ name ++ " result: " ++ (if r.success then r.output else r.error.getD "Failed") ++ "]"

/-- The `tool_results` vector built by the execution loop: tools run in
parsed order; an executor-level error (`Err`) contributes nothing, while
any returned `ToolResult` — failed or not — is formatted and collected. -/
def toolResultsOf (exec : ToolRequest → Except CnapseError ToolResult)
    (calls : List ToolRequest) : List String :=
  calls.filterMap (fun t =>
    match exec t with
    | .ok r => some (formatToolResult t.name r)
    | .error _ => none)

/-- `Vec::join("\n")` on the collected tool results. -/
def joinWith (sep : String) : List String → String
  | [] => ""
  | [s] => s
  | s :: rest => s ++ sep ++ joinWith sep rest

/-- Observable outcome of one `process_with_agent` call: the database after
the turn, the returned result, and (when a follow-up inference call was
issued) the message list submitted to it. -/
structure TurnOutcome where
  db : DB
  result : Except CnapseError String
  followupContext : Option (List AgentMessage)

/-- The tool phase of `process_with_agent` (src/tui/app.rs lines 368–450):
parse the reply, execute the parsed tools, and — when any results were
collected — issue the follow-up inference call over the extended context.
Returns the `final_response` to commit and the context submitted to the
follow-up call (if one was issued).  A failed follow-up call silently
keeps `final_response` as the first reply (`if let Ok(follow_up) = ...`). -/
def turnStage (content : String) (all_messages : List AgentMessage)
    (exec : ToolRequest → Except CnapseError ToolResult)
    (infer2 : Except CnapseError String) : String × Option (List AgentMessage) :=
  let tool_calls := parse_tool_calls content
  let tool_results := toolResultsOf exec tool_calls
  if tool_calls.isEmpty then (content, none)
  else if tool_results.isEmpty then (content, none)
  else
    let ctx := all_messages ++
      [AgentMessage.assistant content,
       AgentMessage.user ("Tool results:\n" ++ joinWith "\n" tool_results)]
    match infer2 with
    | .ok follow_up => (content ++ "\n\n" ++ follow_up, some ctx)
    | .error _ => (content, some ctx)

/-- `TuiApp::process_with_agent`.  Control flow from the source: an error
from the first inference call propagates before any write; parsed tools are
all executed in order and their `Ok` results collected; a follow-up
inference call is issued only when `tool_results` is non-empty, and its
failure silently keeps `final_response` as the first reply; finally the
user message and the assistant message are committed by two separate
`MemoryStore::add_message` calls, each propagating its own failure. -/
def process_with_agent (db : DB) (conversation_id : String) (input : String)
    (history : List AgentMessage) (system_prompt : String)
    (infer1 : Except CnapseError String)
    (exec : ToolRequest → Except CnapseError ToolResult)
    (infer2 : Except CnapseError String)
    (userWriteOk assistantWriteOk : Bool) : TurnOutcome :=
  match infer1 with
  | .error e => ⟨db, .error e, none⟩
  | .ok content =>
    let all_messages :=
      AgentMessage.system system_prompt :: (history ++ [AgentMessage.user input])
    let stage := turnStage content all_messages exec infer2
    let final_response := stage.1
    let followup_ctx := stage.2
    if userWriteOk then
      let db1 := (MemoryStore.add_message db conversation_id "user" input none none).1
      if assistantWriteOk then
        let db2 :=
          (MemoryStore.add_message db1 conversation_id "assistant" final_response none none).1
        ⟨db2, .ok final_response, followup_ctx⟩
      else ⟨db1, .error (.database "INSERT failed"), followup_ctx⟩
    else ⟨db, .error (.database "INSERT failed"), followup_ctx⟩

/-! ### Concrete fixtures used by witnesses and counterexamples -/

/-- A freshly opened store with empty tables. -/
def dbEmpty : DB :=
  ⟨[], [], [], 0⟩

/-- A concrete OS oracle where every tool invocation succeeds. -/
def osDefault : OsWorld where
  read_file := fun p => ToolResult.okOut ("contents of " ++ p)
  write_file := fun _ _ => ToolResult.okOut "written"
  list_dir := fun p _ => ToolResult.okOut ("entries of " ++ p)
  run_command := fun c => ToolResult.okOut ("ran " ++ c)
  set_clipboard := fun _ => ToolResult.okOut "copied"
  get_clipboard := ToolResult.okOut "clip"
  list_processes := ToolResult.okOut "procs"
  kill_process := fun _ => ToolResult.okOut "killed"
  take_screenshot := fun _ => ToolResult.okOut "shot"

/-- A tool executor model whose every call succeeds (used where a claim
quantifies over the executor and a witness needs a concrete one). -/
def execAlwaysOk : ToolRequest → Except CnapseError ToolResult :=
  fun _ => .ok ⟨true, "", none⟩

/-! ## Claim C7 -/

/-- C7: `get_notes` with a tag filter returns exactly the notes (among the
selected newest `limit`) that share at least one tag with the filter set —
union semantics, not intersection.  In particular, with notes tagged
`{a}`, `{b}`, `{a,c}`, filtering on `["a"]` returns the first and third
note (newest first) and not the second. -/
theorem get_notes_tag_filter_union :
    (∀ (db : DB) (filter_tags : List String) (limit : Nat) (n : NoteRow),
        n ∈ MemoryStore.get_notes db (some filter_tags) limit ↔
          n ∈ db.notes.reverse.take limit ∧ ∃ t ∈ filter_tags, t ∈ n.tags) ∧
    (MemoryStore.get_notes
        (MemoryStore.save_note
          (MemoryStore.save_note
            (MemoryStore.save_note dbEmpty "n1" ["a"]).1 "n2" ["b"]).1
          "n3" ["a", "c"]).1
        (some ["a"]) 100).map NoteRow.content = ["n3", "n1"] := by
  constructor
  · intro db filter_tags limit n
    simp [MemoryStore.get_notes, List.mem_filter, List.any_eq_true]
  · rfl

/-! ## Claim C8 -/

/-- C8: `MemoryStore::add_message` followed by
`get_messages(session_id, limit ≥ 1)` returns (as the newest entry) a
stored message whose content, role and session id are exactly the values
passed to `add_message`; storage does not transform the content. -/
theorem add_message_get_messages_round_trip (db : DB)
    (session_id role content : String) (agent : Option String)
    (tokens : Option Int) (limit : Nat) (hlim : 1 ≤ limit) :
    ∃ m : MsgRow,
      (MemoryStore.get_messages
          (MemoryStore.add_message db session_id role content agent tokens).1
          session_id (some limit)).head? = some m ∧
      m.content = content ∧ m.role = role ∧ m.session_id = session_id := by
  obtain ⟨k, rfl⟩ : ∃ k, limit = k + 1 := ⟨limit - 1, by omega⟩
  refine ⟨⟨db.tick, session_id, role, content, agent, tokens, db.tick⟩, ?_, rfl, rfl, rfl⟩
  simp [MemoryStore.get_messages, MemoryStore.add_message, List.filter_append]

/-- Witness for C8 at a concrete store, message and limit. -/
theorem add_message_get_messages_round_trip_witness :
    1 ≤ 1 ∧
    ∃ m : MsgRow,
      (MemoryStore.get_messages
          (MemoryStore.add_message dbEmpty "s" "user" "hello" none none).1
          "s" (some 1)).head? = some m ∧
      m.content = "hello" ∧ m.role = "user" ∧ m.session_id = "s" :=
  ⟨le_refl 1,
    add_message_get_messages_round_trip dbEmpty "s" "user" "hello" none none 1 (le_refl 1)⟩

/-! ## Claim C9 -/

/-- C9: `get_notes` applies its `LIMIT` before the tag filter: every
returned note lies among the newest `limit` notes, and a matching note
older than those is never returned — concretely, with an old note tagged
`a` and a newer untagged note, `get_notes(tags=["a"], limit=1)` returns
nothing although a matching note is stored. -/
theorem get_notes_limit_before_tag_filter :
    (∀ (db : DB) (tags : Option (List String)) (limit : Nat) (n : NoteRow),
        n ∈ MemoryStore.get_notes db tags limit → n ∈ db.notes.reverse.take limit) ∧
    (MemoryStore.get_notes
        (MemoryStore.save_note (MemoryStore.save_note dbEmpty "old" ["a"]).1 "new" []).1
        (some ["a"]) 1 = [] ∧
      ((MemoryStore.save_note (MemoryStore.save_note dbEmpty "old" ["a"]).1 "new" []).1.notes.filter
          (fun n => n.tags.contains "a")).map NoteRow.content = ["old"]) := by
  refine ⟨?_, rfl, rfl⟩
  intro db tags limit n hn
  cases tags with
  | none => exact hn
  | some filter_tags => exact (List.mem_filter.mp hn).1

/-- Witness for C9's universal part at a concrete store and note. -/
theorem get_notes_limit_before_tag_filter_witness :
    (⟨0, "w", ["x"], 0⟩ : NoteRow) ∈
      (MemoryStore.save_note dbEmpty "w" ["x"]).1.notes.reverse.take 5 :=
  get_notes_limit_before_tag_filter.1
    (MemoryStore.save_note dbEmpty "w" ["x"]).1 (some ["x"]) 5 _ (by decide)

/-! ## Claim C4 -/

/-- C4 counterexample: for the registered tool `read_file` with no `path`
argument, `execute` does NOT return a `ToolResult` with `success = false`;
it raises the missing-argument failure to the caller as an `Err`
(`CnapseError::Tool`), unlike the unknown-tool case, which does return the
`ToolResult{success: false, ...}` shape. -/
theorem execute_missing_arg_shape_cex :
    ToolExecutor.execute osDefault ⟨"read_file", []⟩ =
      .error (.tool "Missing argument: path") ∧
    ToolExecutor.execute osDefault ⟨"nosuch", []⟩ =
      .ok ⟨false, "", some "Unknown tool: nosuch"⟩ :=
  ⟨rfl, rfl⟩

/-- C4 amended: a registered tool with a missing (or non-string /
non-integer) required argument makes `execute` return an error to the
caller whose text names the missing argument — `Err(CnapseError::Tool
("Missing argument: <key>"))` — which is NOT the failure shape of the
unknown-tool case (`Ok(ToolResult{success: false, error: "Unknown tool:
<name>"})`). -/
theorem execute_missing_arg_raises (os : OsWorld) (args : Args) :
    (ToolExecutor.get_string_arg args "path" = .error (.tool "Missing argument: path") →
      ToolExecutor.execute os ⟨"read_file", args⟩ = .error (.tool "Missing argument: path") ∧
      ToolExecutor.execute os ⟨"write_file", args⟩ = .error (.tool "Missing argument: path")) ∧
    (ToolExecutor.get_string_arg args "command" = .error (.tool "Missing argument: command") →
      ToolExecutor.execute os ⟨"shell", args⟩ = .error (.tool "Missing argument: command") ∧
      ToolExecutor.execute os ⟨"run_command", args⟩ = .error (.tool "Missing argument: command")) ∧
    (ToolExecutor.get_string_arg args "text" = .error (.tool "Missing argument: text") →
      ToolExecutor.execute os ⟨"copy_to_clipboard", args⟩ = .error (.tool "Missing argument: text")) ∧
    (ToolExecutor.get_int_arg args "pid" = .error (.tool "Missing argument: pid") →
      ToolExecutor.execute os ⟨"kill_process", args⟩ = .error (.tool "Missing argument: pid")) ∧
    ToolExecutor.execute os ⟨"frobnicate", args⟩ =
      .ok ⟨false, "", some "Unknown tool: frobnicate"⟩ := by
  refine ⟨fun h => ⟨?_, ?_⟩, fun h => ⟨?_, ?_⟩, fun h => ?_, fun h => ?_, rfl⟩ <;>
    simp [ToolExecutor.execute, ToolExecutor.execute.runShell, h]

/-- Witness for C4's amended theorem at a concrete executor and empty
argument map. -/
theorem execute_missing_arg_raises_witness :
    ToolExecutor.execute osDefault ⟨"read_file", []⟩ =
      .error (.tool "Missing argument: path") ∧
    ToolExecutor.execute osDefault ⟨"kill_process", []⟩ =
      .error (.tool "Missing argument: pid") :=
  ⟨((execute_missing_arg_raises osDefault []).1 rfl).1,
    (execute_missing_arg_raises osDefault []).2.2.2.1 rfl⟩

/-! ## Claim C10 -/

/-- C10: the `list_dir` branch treats a missing or non-string `path`
argument as the default path `"."` and proceeds to list the current
directory, while `read_file` and `write_file` fail with the
missing-argument error for the same argument map. -/
theorem list_dir_defaults_missing_path (os : OsWorld) (args : Args)
    (h : ToolExecutor.get_string_arg args "path" = .error (.tool "Missing argument: path")) :
    ToolExecutor.execute os ⟨"list_dir", args⟩ = .ok (os.list_dir "." false) ∧
    ToolExecutor.execute os ⟨"read_file", args⟩ = .error (.tool "Missing argument: path") ∧
    ToolExecutor.execute os ⟨"write_file", args⟩ = .error (.tool "Missing argument: path") := by
  refine ⟨?_, ?_, ?_⟩ <;> simp [ToolExecutor.execute, h]

/-- Witness for C10 with a concrete non-string `path` argument. -/
theorem list_dir_defaults_missing_path_witness :
    ToolExecutor.execute osDefault ⟨"list_dir", [("path", Json.num 3)]⟩ =
      .ok (osDefault.list_dir "." false) ∧
    ToolExecutor.execute osDefault ⟨"read_file", [("path", Json.num 3)]⟩ =
      .error (.tool "Missing argument: path") ∧
    ToolExecutor.execute osDefault ⟨"write_file", [("path", Json.num 3)]⟩ =
      .error (.tool "Missing argument: path") :=
  list_dir_defaults_missing_path osDefault [("path", Json.num 3)] rfl

/-! ## Claim C2 -/

/-- C2 counterexample: on a failed durable write, `ContextManager::add_message`
does NOT leave the hot window as it was — the message was pushed before the
write, so the hot window of a fresh manager ends up holding the message
while the call reports the storage error. -/
theorem hot_window_mutated_on_failed_write_cex :
    (ContextManager.add_message ⟨dbEmpty, 1, "s", []⟩ (AgentMessage.user "hi") none
        false).1.hot_messages = [AgentMessage.user "hi"] ∧
    (ContextManager.add_message ⟨dbEmpty, 1, "s", []⟩ (AgentMessage.user "hi") none
        false).2 = .error (.database "INSERT failed") :=
  ⟨rfl, rfl⟩

/-- C2 amended: when the durable write fails, `add_message` returns the
storage error and leaves the durable store untouched, but the hot window
has already been extended by the message (the push precedes the write and
there is no rollback), so the in-memory window can hold a message durable
storage does not. -/
theorem add_message_failed_write_appends_hot (cm : ContextManager)
    (message : AgentMessage) (agent : Option String) :
    (ContextManager.add_message cm message agent false).2 =
      .error (.database "INSERT failed") ∧
    (ContextManager.add_message cm message agent false).1.hot_messages =
      cm.hot_messages ++ [message] ∧
    (ContextManager.add_message cm message agent false).1.store = cm.store :=
  ⟨rfl, rfl, rfl⟩

/-! ## Claim C5
Helper lemmas: after a successful `add_message`, the hot window is the
`max_hot`-suffix of the full insertion sequence; folded over a run of
successful calls this characterizes the retained window, while a failed
write (see C2) skips the trim and can push the length past the bound. -/

theorem add_message_true_hot_turns (cm : ContextManager) (m : AgentMessage)
    (a : Option String) :
    (ContextManager.add_message cm m a true).1.hot_turns = cm.hot_turns := by
  unfold ContextManager.add_message
  simp only [reduceIte]
  split <;> rfl

theorem add_message_true_store (cm : ContextManager) (m : AgentMessage)
    (a : Option String) :
    (ContextManager.add_message cm m a true).1.store =
      (MemoryStore.add_message cm.store cm.session_id m.role.toDbRole m.content a none).1 := by
  unfold ContextManager.add_message
  simp only [reduceIte]
  split <;> rfl

theorem add_message_true_hot (cm : ContextManager) (m : AgentMessage)
    (a : Option String) (p : List AgentMessage)
    (hp : cm.hot_messages = p.drop (p.length - cm.hot_turns * 2)) :
    (ContextManager.add_message cm m a true).1.hot_messages =
      (p ++ [m]).drop (p.length + 1 - cm.hot_turns * 2) := by
  have hshape : (ContextManager.add_message cm m a true).1.hot_messages =
      if cm.hot_turns * 2 < (cm.hot_messages ++ [m]).length then
        (cm.hot_messages ++ [m]).drop ((cm.hot_messages ++ [m]).length - cm.hot_turns * 2)
      else cm.hot_messages ++ [m] := by
    unfold ContextManager.add_message
    simp only [reduceIte]
    split <;> rfl
  rw [hshape, hp]
  rcases Nat.lt_or_ge p.length (cm.hot_turns * 2) with hlt | hge
  · have h0 : p.length - cm.hot_turns * 2 = 0 := by omega
    have h1 : p.length + 1 - cm.hot_turns * 2 = 0 := by omega
    rw [h0, h1, List.drop_zero, List.drop_zero]
    rw [if_neg]
    simp only [List.length_append, List.length_cons, List.length_nil]
    omega
  · have hcond : cm.hot_turns * 2 < (p.drop (p.length - cm.hot_turns * 2) ++ [m]).length := by
      simp only [List.length_append, List.length_drop, List.length_cons, List.length_nil]
      omega
    rw [if_pos hcond]
    rw [List.drop_append_eq_append_drop, List.drop_append_eq_append_drop,
      List.drop_drop]
    congr 1
    · congr 1
      simp only [List.length_append, List.length_drop, List.length_cons, List.length_nil]
      omega
    · congr 1
      simp only [List.length_append, List.length_drop, List.length_cons, List.length_nil]
      omega

theorem add_messages_all_ok_hot (msgs : List AgentMessage) :
    ∀ (cm : ContextManager) (p : List AgentMessage),
      cm.hot_messages = p.drop (p.length - cm.hot_turns * 2) →
      (ContextManager.add_messages cm (msgs.map (fun m => (m, true)))).hot_messages =
        (p ++ msgs).drop (p.length + msgs.length - cm.hot_turns * 2) := by
  induction msgs with
  | nil =>
    intro cm p hp
    simpa [ContextManager.add_messages] using hp
  | cons m rest ih =>
    intro cm p hp
    have hstep := add_message_true_hot cm m none p hp
    have hht := add_message_true_hot_turns cm m none
    have hrec : ContextManager.add_messages cm ((m :: rest).map (fun m => (m, true))) =
        ContextManager.add_messages (ContextManager.add_message cm m none true).1
          (rest.map (fun m => (m, true))) := rfl
    rw [hrec]
    have hnext : (ContextManager.add_message cm m none true).1.hot_messages =
        (p ++ [m]).drop ((p ++ [m]).length -
          (ContextManager.add_message cm m none true).1.hot_turns * 2) := by
      rw [hht, hstep]
      congr 1
      simp
    have hout := ih (ContextManager.add_message cm m none true).1 (p ++ [m]) hnext
    rw [hout, hht]
    congr 1
    · simp only [List.length_append, List.length_cons, List.length_nil]
      omega
    · simp

theorem add_messages_all_ok_store (msgs : List AgentMessage) :
    ∀ cm : ContextManager,
      (ContextManager.add_messages cm (msgs.map (fun m => (m, true)))).store.messages.map
          MsgRow.content =
        cm.store.messages.map MsgRow.content ++ msgs.map AgentMessage.content := by
  induction msgs with
  | nil =>
    intro cm
    simp [ContextManager.add_messages]
  | cons m rest ih =>
    intro cm
    have hrec : ContextManager.add_messages cm ((m :: rest).map (fun m => (m, true))) =
        ContextManager.add_messages (ContextManager.add_message cm m none true).1
          (rest.map (fun m => (m, true))) := rfl
    rw [hrec, ih]
    rw [add_message_true_store]
    simp [MemoryStore.add_message]

/-- C5 counterexample: the bound `len(HotWindow) ≤ max_hot` does not hold
after every sequence of `add_message` calls — with `hot_turns = 1`
(`max_hot = 2`), two successful calls followed by one whose durable write
fails leave three messages in the hot window, because the failing call
pushes before the write and returns before the trim. -/
theorem hot_window_bound_violated_cex :
    (ContextManager.add_messages ⟨dbEmpty, 1, "s", []⟩
        [(AgentMessage.user "u1", true), (AgentMessage.assistant "a1", true),
          (AgentMessage.user "u2", false)]).hot_messages.length = 3 ∧
    (⟨dbEmpty, 1, "s", []⟩ : ContextManager).hot_turns * 2 = 2 :=
  ⟨rfl, rfl⟩

/-- C5 amended: after any sequence of `add_message` calls in which every
durable write succeeds, starting from an empty hot window, the hot window
is exactly the suffix of the most recent `hot_turns * 2` messages in
insertion order (hence its length is within the bound), and durable
storage still holds every message ever added (eviction removes nothing
from the store).  A call whose durable write fails skips the trim and can
leave the window one past the bound. -/
theorem hot_window_bound_all_writes_ok (hot_turns : Nat) (db : DB) (sid : String)
    (msgs : List AgentMessage) :
    (ContextManager.add_messages ⟨db, hot_turns, sid, []⟩
        (msgs.map (fun m => (m, true)))).hot_messages =
      msgs.drop (msgs.length - hot_turns * 2) ∧
    (ContextManager.add_messages ⟨db, hot_turns, sid, []⟩
        (msgs.map (fun m => (m, true)))).hot_messages.length ≤ hot_turns * 2 ∧
    (ContextManager.add_messages ⟨db, hot_turns, sid, []⟩
        (msgs.map (fun m => (m, true)))).store.messages.map MsgRow.content =
      db.messages.map MsgRow.content ++ msgs.map AgentMessage.content := by
  have h1 := add_messages_all_ok_hot msgs ⟨db, hot_turns, sid, []⟩ [] (by simp)
  simp only [List.nil_append, List.length_nil, Nat.zero_add] at h1
  refine ⟨h1, ?_, add_messages_all_ok_store msgs ⟨db, hot_turns, sid, []⟩⟩
  rw [h1]
  simp only [List.length_drop]
  omega

/-! ## Turn-loop helper lemmas (shared by C1, C3, C6) -/

theorem process_error_eq (db : DB) (conv input : String)
    (hist : List AgentMessage) (sys : String) (e : CnapseError)
    (exec : ToolRequest → Except CnapseError ToolResult)
    (infer2 : Except CnapseError String) (uOk aOk : Bool) :
    process_with_agent db conv input hist sys (.error e) exec infer2 uOk aOk =
      ⟨db, .error e, none⟩ :=
  rfl

theorem process_true_true_eq (db : DB) (conv input : String)
    (hist : List AgentMessage) (sys content : String)
    (exec : ToolRequest → Except CnapseError ToolResult)
    (infer2 : Except CnapseError String) :
    process_with_agent db conv input hist sys (.ok content) exec infer2 true true =
      ⟨(MemoryStore.add_message (MemoryStore.add_message db conv "user" input none none).1
          conv "assistant"
          (turnStage content (AgentMessage.system sys :: (hist ++ [AgentMessage.user input]))
            exec infer2).1 none none).1,
        .ok (turnStage content (AgentMessage.system sys :: (hist ++ [AgentMessage.user input]))
          exec infer2).1,
        (turnStage content (AgentMessage.system sys :: (hist ++ [AgentMessage.user input]))
          exec infer2).2⟩ :=
  rfl

theorem process_true_false_eq (db : DB) (conv input : String)
    (hist : List AgentMessage) (sys content : String)
    (exec : ToolRequest → Except CnapseError ToolResult)
    (infer2 : Except CnapseError String) :
    process_with_agent db conv input hist sys (.ok content) exec infer2 true false =
      ⟨(MemoryStore.add_message db conv "user" input none none).1,
        .error (.database "INSERT failed"),
        (turnStage content (AgentMessage.system sys :: (hist ++ [AgentMessage.user input]))
          exec infer2).2⟩ :=
  rfl

theorem process_false_eq (db : DB) (conv input : String)
    (hist : List AgentMessage) (sys content : String)
    (exec : ToolRequest → Except CnapseError ToolResult)
    (infer2 : Except CnapseError String) (aOk : Bool) :
    process_with_agent db conv input hist sys (.ok content) exec infer2 false aOk =
      ⟨db, .error (.database "INSERT failed"),
        (turnStage content (AgentMessage.system sys :: (hist ++ [AgentMessage.user input]))
          exec infer2).2⟩ := by
  cases aOk <;> rfl

theorem process_followup_eq (db : DB) (conv input : String)
    (hist : List AgentMessage) (sys content : String)
    (exec : ToolRequest → Except CnapseError ToolResult)
    (infer2 : Except CnapseError String) (uOk aOk : Bool) :
    (process_with_agent db conv input hist sys (.ok content) exec infer2 uOk aOk).followupContext =
      (turnStage content (AgentMessage.system sys :: (hist ++ [AgentMessage.user input]))
        exec infer2).2 := by
  cases uOk <;> cases aOk <;> rfl

theorem turnStage_error_fst (content : String) (all_messages : List AgentMessage)
    (exec : ToolRequest → Except CnapseError ToolResult) (e : CnapseError) :
    (turnStage content all_messages exec (.error e)).1 = content := by
  unfold turnStage
  cases h1 : (parse_tool_calls content).isEmpty <;>
    cases h2 : (toolResultsOf exec (parse_tool_calls content)).isEmpty <;>
      simp [h1, h2]

theorem toolResults_nonempty_calls_nonempty (content : String)
    (exec : ToolRequest → Except CnapseError ToolResult)
    (h : toolResultsOf exec (parse_tool_calls content) ≠ []) :
    (parse_tool_calls content).isEmpty = false := by
  cases hc : parse_tool_calls content with
  | nil => exact absurd (by rw [hc]; rfl) h
  | cons a l => rfl

theorem turnStage_snd (content : String) (all_messages : List AgentMessage)
    (exec : ToolRequest → Except CnapseError ToolResult)
    (infer2 : Except CnapseError String)
    (h : toolResultsOf exec (parse_tool_calls content) ≠ []) :
    (turnStage content all_messages exec infer2).2 =
      some (all_messages ++
        [AgentMessage.assistant content,
         AgentMessage.user ("Tool results:\n" ++
           joinWith "\n" (toolResultsOf exec (parse_tool_calls content)))]) := by
  have hcalls := toolResults_nonempty_calls_nonempty content exec h
  have hres : (toolResultsOf exec (parse_tool_calls content)).isEmpty = false := by
    cases hr : toolResultsOf exec (parse_tool_calls content) with
    | nil => exact absurd hr h
    | cons a l => rfl
  unfold turnStage
  simp only [hcalls, hres, Bool.false_eq_true, if_false]
  cases infer2 <;> rfl

/-! ## Claim C1 -/

/-- C1 counterexample: the commit is two separate store writes; when the
first inference call succeeds and the user-message INSERT succeeds but the
assistant-message INSERT fails, the turn ends in error with the user
message durably stored and no terminal assistant message — refuting
turn-level atomicity of durable memory for the persistence-failure path. -/
theorem turn_commit_not_atomic_cex :
    (process_with_agent dbEmpty "conv" "hi" [] "sys" (.ok "hello") execAlwaysOk
        (.ok "follow") true false).db.messages.map (fun m => (m.role, m.content)) =
      [("user", "hi")] ∧
    (process_with_agent dbEmpty "conv" "hi" [] "sys" (.ok "hello") execAlwaysOk
        (.ok "follow") true false).result = .error (.database "INSERT failed") :=
  ⟨rfl, rfl⟩

/-- C1 amended: durable memory is committed atomically on every failure
path EXCEPT a persistence failure between the two commit writes: an
inference error or a failed user-message write leaves the store untouched
(and tool errors never abort the turn, so they commit both messages), but
a failed assistant-message write after a successful user-message write
leaves exactly the user message stored without a terminal assistant
message, because the two `add_message` calls are separate transactions. -/
theorem turn_commit_paths (db : DB) (conv input : String)
    (hist : List AgentMessage) (sys : String)
    (exec : ToolRequest → Except CnapseError ToolResult)
    (infer2 : Except CnapseError String) :
    (∀ (e : CnapseError) (uOk aOk : Bool),
        process_with_agent db conv input hist sys (.error e) exec infer2 uOk aOk =
          ⟨db, .error e, none⟩) ∧
    (∀ (content : String) (aOk : Bool),
        (process_with_agent db conv input hist sys (.ok content) exec infer2 false aOk).db =
          db) ∧
    (∀ content : String, ∃ a : String,
        (process_with_agent db conv input hist sys (.ok content) exec infer2
              true true).db.messages =
            db.messages ++ [⟨db.tick, conv, "user", input, none, none, db.tick⟩,
              ⟨db.tick + 1, conv, "assistant", a, none, none, db.tick + 1⟩] ∧
          (process_with_agent db conv input hist sys (.ok content) exec infer2
            true true).result = .ok a) ∧
    (∀ content : String,
        (process_with_agent db conv input hist sys (.ok content) exec infer2
              true false).db.messages =
            db.messages ++ [⟨db.tick, conv, "user", input, none, none, db.tick⟩] ∧
          (process_with_agent db conv input hist sys (.ok content) exec infer2
            true false).result = .error (.database "INSERT failed")) := by
  refine ⟨fun e uOk aOk => rfl, fun content aOk => ?_, fun content => ?_, fun content => ?_⟩
  · rw [process_false_eq]
  · refine ⟨(turnStage content
        (AgentMessage.system sys :: (hist ++ [AgentMessage.user input])) exec infer2).1,
      ?_, ?_⟩
    · rw [process_true_true_eq]
      simp [MemoryStore.add_message]
    · rw [process_true_true_eq]
  · refine ⟨?_, ?_⟩
    · rw [process_true_false_eq]
      simp [MemoryStore.add_message]
    · rw [process_true_false_eq]

/-! ## Claim C3 -/

/-- C3 counterexample: a turn where one tool executed (successfully) and
the follow-up inference call fails commits the FIRST REPLY ALONE as the
assistant answer — the collected tool results (here non-empty) are not
concatenated to it, so the committed answer is not "first reply plus a
rendering of the tool results". -/
theorem followup_failure_fallback_cex :
    (process_with_agent dbEmpty "conv" "q" [] "sys" (.ok "Run [TOOL: read_clipboard()]")
        (ToolExecutor.execute osDefault) (.error (.inference "down")) true
        true).result = .ok "Run [TOOL: read_clipboard()]" ∧
    (process_with_agent dbEmpty "conv" "q" [] "sys" (.ok "Run [TOOL: read_clipboard()]")
        (ToolExecutor.execute osDefault) (.error (.inference "down")) true
        true).db.messages.map MsgRow.content = ["q", "Run [TOOL: read_clipboard()]"] ∧
    toolResultsOf (ToolExecutor.execute osDefault)
        (parse_tool_calls "Run [TOOL: read_clipboard()]") =
      ["[read_clipboard result: clip]"] ∧
    "Run [TOOL: read_clipboard()]" ++ "\n\n" ++ "[read_clipboard result: clip]" ≠
      "Run [TOOL: read_clipboard()]" :=
  ⟨rfl, rfl, rfl, by decide⟩

/-- C3 amended: in a turn where at least one tool executed, if the
follow-up inference call fails, the committed assistant answer equals the
first inference reply ALONE — the collected tool results are dropped from
the committed answer (they survive only in the chat pane's tool-call
display), even though the follow-up context had been built. -/
theorem followup_failure_commits_first_reply (db : DB) (conv input : String)
    (hist : List AgentMessage) (sys content : String)
    (exec : ToolRequest → Except CnapseError ToolResult) (e : CnapseError)
    (h : toolResultsOf exec (parse_tool_calls content) ≠ []) :
    (process_with_agent db conv input hist sys (.ok content) exec (.error e)
        true true).result = .ok content ∧
    (process_with_agent db conv input hist sys (.ok content) exec (.error e)
        true true).db.messages =
      db.messages ++ [⟨db.tick, conv, "user", input, none, none, db.tick⟩,
        ⟨db.tick + 1, conv, "assistant", content, none, none, db.tick + 1⟩] ∧
    (process_with_agent db conv input hist sys (.ok content) exec (.error e)
        true true).followupContext.isSome = true := by
  refine ⟨?_, ?_, ?_⟩
  · rw [process_true_true_eq, turnStage_error_fst]
  · rw [process_true_true_eq, turnStage_error_fst]
    simp [MemoryStore.add_message]
  · rw [process_followup_eq, turnStage_snd _ _ _ _ h]
    rfl

/-- Witness for C3's amended theorem at the counterexample's inputs. -/
theorem followup_failure_commits_first_reply_witness :
    (process_with_agent dbEmpty "conv" "q" [] "sys" (.ok "Run [TOOL: read_clipboard()]")
        (ToolExecutor.execute osDefault) (.error (.inference "down")) true
        true).result = .ok "Run [TOOL: read_clipboard()]" :=
  (followup_failure_commits_first_reply dbEmpty "conv" "q" [] "sys"
    "Run [TOOL: read_clipboard()]" (ToolExecutor.execute osDefault)
    (.inference "down") (by decide)).1

/-! ## Claim C6 -/

/-- C6: for a reply whose parse yields three tool requests, the tools run
in parsed order, a failing second tool (a returned `ToolResult` with
`success = false`) does not prevent execution of the third, and all three
formatted results appear — in order — in the synthesized tool-results
message of the context submitted to the follow-up inference call. -/
theorem tool_failure_isolation (db : DB) (conv input : String)
    (hist : List AgentMessage) (sys content : String)
    (exec : ToolRequest → Except CnapseError ToolResult)
    (infer2 : Except CnapseError String) (uOk aOk : Bool)
    (t1 t2 t3 : ToolRequest) (r1 r2 r3 : ToolResult)
    (hp : parse_tool_calls content = [t1, t2, t3])
    (h1 : exec t1 = .ok r1) (h2 : exec t2 = .ok r2) (h3 : exec t3 = .ok r3)
    (_hfail : r2.success = false) :
    (process_with_agent db conv input hist sys (.ok content) exec infer2
        uOk aOk).followupContext =
      some ((AgentMessage.system sys :: (hist ++ [AgentMessage.user input])) ++
        [AgentMessage.assistant content,
         AgentMessage.user ("Tool results:\n" ++
           (formatToolResult t1.name r1 ++ "\n" ++
             (formatToolResult t2.name r2 ++ "\n" ++ formatToolResult t3.name r3)))]) := by
  have hres : toolResultsOf exec (parse_tool_calls content) =
      [formatToolResult t1.name r1, formatToolResult t2.name r2,
        formatToolResult t3.name r3] := by
    rw [hp]
    simp [toolResultsOf, h1, h2, h3]
  rw [process_followup_eq, turnStage_snd _ _ _ _ (by rw [hres]; simp), hres]
  rfl

/-- Witness for C6: a concrete reply carrying three inline directives, run
against the concrete executor; the middle tool is unregistered, so its
`ToolResult` has `success = false`, yet all three results reach the
follow-up context. -/
theorem tool_failure_isolation_witness :
    (process_with_agent dbEmpty "conv" "go" []
        "sys" (.ok "A [TOOL: read_file(path=/tmp)] B [TOOL: frobnicate()] C [TOOL: read_clipboard()]")
        (ToolExecutor.execute osDefault) (.error (.inference "down")) true
        true).followupContext =
      some ((AgentMessage.system "sys" :: ([] ++ [AgentMessage.user "go"])) ++
        [AgentMessage.assistant
          "A [TOOL: read_file(path=/tmp)] B [TOOL: frobnicate()] C [TOOL: read_clipboard()]",
         AgentMessage.user ("Tool results:\n" ++
           (formatToolResult "read_file" ⟨true, "contents of /tmp", none⟩ ++ "\n" ++
             (formatToolResult "frobnicate" ⟨false, "", some "Unknown tool: frobnicate"⟩ ++
               "\n" ++ formatToolResult "read_clipboard" ⟨true, "clip", none⟩)))]) :=
  tool_failure_isolation dbEmpty "conv" "go" [] "sys"
    "A [TOOL: read_file(path=/tmp)] B [TOOL: frobnicate()] C [TOOL: read_clipboard()]"
    (ToolExecutor.execute osDefault) (.error (.inference "down")) true true
    ⟨"read_file", [("path", Json.str "/tmp")]⟩ ⟨"frobnicate", []⟩ ⟨"read_clipboard", []⟩
    ⟨true, "contents of /tmp", none⟩ ⟨false, "", some "Unknown tool: frobnicate"⟩
    ⟨true, "clip", none⟩ rfl rfl rfl rfl rfl

end Cnapse

